import Mathlib

/-!
Verification of the eg-julia.amp.lv2 plugin (src/julia-amp.cpp): the Worker
task queue, the Julia singleton lifecycle, and the LV2 plugin callbacks.

The Worker (src/julia-amp.cpp lines 47-95) owns a thread, a FIFO deque of
type-erased tasks, and serves `spawn` (enqueue a packaged task, return it)
and `run` (spawn, then block on the future until the result is ready).  We
model it as an explicit state machine: `stepOnce` is one iteration of
`threadFunc` (one wake cycle: check the shutdown flag, then pop and execute
exactly one task), `run` is spawn followed by stepping the worker thread
until the spawned task's result slot is fulfilled, which is how the blocked
caller observes completion.  A task is a state transformer on the state `S`
owned by the worker thread (the embedded Julia runtime) returning an
`Outcome`: `Outcome.err` models a C++ exception thrown by the callable and
captured by `std::packaged_task` into the result slot.  `execLog` records
the observable event order (which task bodies ran, and the shutdown signal).
-/

/-- Result slot content of a task: a produced value, or a captured failure
(the exception stored by `std::packaged_task` when the callable throws). -/
inductive Outcome (V : Type) where
  | ok (v : V)
  | err
deriving DecidableEq

/-- A task body: runs on the worker thread, may read and update the
thread-owned state `S` (the embedded runtime), and produces an outcome. -/
def JTask (S V : Type) : Type := S → S × Outcome V

/-- Observable worker-thread events, in order: execution of the task with a
given id, and the shutdown signal from the destructor. -/
inductive WEvent where
  | task (id : Nat)
  | stop
deriving DecidableEq

/-- State of a Worker (src/julia-amp.cpp lines 47-95): the `running` flag,
the thread-owned state, the FIFO task queue (head = front), the fulfilled
result slots, the event log, and a counter for fresh task ids. -/
structure Worker (S V : Type) where
  running : Bool
  state : S
  tasks : List (Nat × JTask S V)
  results : List (Nat × Outcome V)
  execLog : List WEvent
  nextId : Nat

/-- Worker constructor (line 55): the thread starts with an empty queue and
`running = true`. -/
def Worker.new (s : S) : Worker S V :=
  ⟨true, s, [], [], [], 0⟩

/-- Worker::spawn (lines 65-73): wrap the callable in a packaged task,
append it at the tail of the queue under the lock, notify, and hand the
caller the (id of the) result handle. -/
def Worker.spawn (w : Worker S V) (f : JTask S V) : Worker S V × Nat :=
  ({ w with tasks := w.tasks ++ [(w.nextId, f)], nextId := w.nextId + 1 }, w.nextId)

/-- One wake cycle of Worker::threadFunc (lines 78-94): if shutdown was
requested, do nothing (the loop breaks before dequeuing); otherwise, if the
queue is non-empty, remove exactly the head task, execute it, and store its
outcome in its result slot. -/
def Worker.stepOnce (w : Worker S V) : Worker S V :=
  if w.running then
    match w.tasks with
    | [] => w
    | (id, f) :: rest =>
      let r := f w.state
      { w with tasks := rest, state := r.1,
               results := w.results ++ [(id, r.2)],
               execLog := w.execLog ++ [WEvent.task id] }
  else w

/-- `n` wake cycles of the worker thread loop. -/
def Worker.stepN (w : Worker S V) : Nat → Worker S V
  | 0 => w
  | Nat.succ n => (w.stepOnce).stepN n

/-- Look up a fulfilled result slot by task id (future::get once ready). -/
def findResult : List (Nat × Outcome V) → Nat → Option (Outcome V)
  | [], _ => none
  | (k, r) :: rest, id => if k = id then some r else findResult rest id

/-- Read the result slot of the task with the given id, if fulfilled. -/
def Worker.getResult (w : Worker S V) (id : Nat) : Option (Outcome V) :=
  findResult w.results id

/-- Worker::run (line 75): spawn the task, then block the calling thread
(modelled as letting the worker thread step through its whole queue) until
the task's result slot is fulfilled, and return its content. -/
def Worker.run (w : Worker S V) (f : JTask S V) : Outcome V × Worker S V :=
  let p := w.spawn f
  let w2 := p.1.stepN p.1.tasks.length
  ((w2.getResult p.2).getD Outcome.err, w2)

/-- Worker::~Worker (lines 56-63): set `running := false` under the lock,
notify the thread, and join it.  Recorded as the `stop` event. -/
def Worker.destroy (w : Worker S V) : Worker S V :=
  { w with running := false, execLog := w.execLog ++ [WEvent.stop] }

/-- Spawn a list of tasks in order (a sequence of Worker::spawn calls). -/
def Worker.spawnAll (w : Worker S V) : List (JTask S V) → Worker S V
  | [] => w
  | f :: fs => ((w.spawn f).1).spawnAll fs

/-- Well-formedness: every id already used (in a result slot or in the
queue) is below the fresh-id counter. -/
def Worker.wf (w : Worker S V) : Prop :=
  (∀ p ∈ w.results, p.1 < w.nextId) ∧ (∀ q ∈ w.tasks, q.1 < w.nextId)

/-- Final thread-owned state after executing a task list in order. -/
def runAllState (s : S) : List (Nat × JTask S V) → S
  | [] => s
  | q :: rest => runAllState ((q.2 s).1) rest

/-- Result slots produced by executing a task list in order. -/
def runAllResults (s : S) : List (Nat × JTask S V) → List (Nat × Outcome V)
  | [] => []
  | q :: rest => (q.1, (q.2 s).2) :: runAllResults ((q.2 s).1) rest

/-- The ids a sequence of spawns will assign, starting from `k`. -/
def idsFrom (k : Nat) : Nat → List Nat
  | 0 => []
  | Nat.succ n => k :: idsFrom (k + 1) n

/-- Pair a task list with the ids a sequence of spawns assigns from `k`. -/
def withIds (k : Nat) : List (JTask S V) → List (Nat × JTask S V)
  | [] => []
  | f :: fs => (k, f) :: withIds (k + 1) fs

theorem withIds_length (k : Nat) (fs : List (JTask S V)) :
    (withIds k fs).length = fs.length := by
  induction fs generalizing k with
  | nil => rfl
  | cons f fs ih => simp [withIds, ih]

theorem withIds_map_fst (k : Nat) (fs : List (JTask S V)) :
    (withIds k fs).map Prod.fst = idsFrom k fs.length := by
  induction fs generalizing k with
  | nil => rfl
  | cons f fs ih => simp [withIds, idsFrom, ih]

theorem runAllState_append (s : S) (q1 q2 : List (Nat × JTask S V)) :
    runAllState s (q1 ++ q2) = runAllState (runAllState s q1) q2 := by
  induction q1 generalizing s with
  | nil => rfl
  | cons q rest ih => simp [runAllState, ih]

theorem runAllResults_append (s : S) (q1 q2 : List (Nat × JTask S V)) :
    runAllResults s (q1 ++ q2)
      = runAllResults s q1 ++ runAllResults (runAllState s q1) q2 := by
  induction q1 generalizing s with
  | nil => rfl
  | cons q rest ih => simp [runAllResults, runAllState, ih]

theorem runAllResults_map_fst (s : S) (q : List (Nat × JTask S V)) :
    (runAllResults s q).map Prod.fst = q.map Prod.fst := by
  induction q generalizing s with
  | nil => rfl
  | cons p rest ih => simp [runAllResults, ih]

theorem findResult_append_right (l1 l2 : List (Nat × Outcome V)) (id : Nat)
    (h : ∀ p ∈ l1, p.1 ≠ id) :
    findResult (l1 ++ l2) id = findResult l2 id := by
  induction l1 with
  | nil => rfl
  | cons p rest ih =>
    have hp : p.1 ≠ id := h p (by simp)
    simp only [List.cons_append, findResult, if_neg hp]
    exact ih (fun q hq => h q (by simp [hq]))

/-- Running the worker thread for as many wake cycles as there are queued
tasks executes every queued task, in queue order, threading the state. -/
theorem Worker.stepN_all (q : List (Nat × JTask S V)) :
    ∀ w : Worker S V, w.running = true → w.tasks = q →
    w.stepN q.length =
      { running := true, state := runAllState w.state q, tasks := [],
        results := w.results ++ runAllResults w.state q,
        execLog := w.execLog ++ q.map (fun p => WEvent.task p.1),
        nextId := w.nextId } := by
  induction q with
  | nil =>
    intro w hr ht
    cases w
    simp_all [Worker.stepN, runAllState, runAllResults]
  | cons p rest ih =>
    intro w hr ht
    have hstep : w.stepOnce =
        { w with tasks := rest, state := (p.2 w.state).1,
                 results := w.results ++ [(p.1, (p.2 w.state).2)],
                 execLog := w.execLog ++ [WEvent.task p.1] } := by
      simp [Worker.stepOnce, hr, ht]
    show (w.stepOnce).stepN rest.length = _
    rw [hstep, ih _ (by simp [hr]) rfl]
    simp [runAllState, runAllResults, List.append_assoc]

/-- A sequence of spawns appends the tasks at the tail of the queue, paired
with consecutive fresh ids, and advances the id counter. -/
theorem Worker.spawnAll_eq (fs : List (JTask S V)) :
    ∀ w : Worker S V,
    w.spawnAll fs = { w with tasks := w.tasks ++ withIds w.nextId fs,
                             nextId := w.nextId + fs.length } := by
  induction fs with
  | nil =>
    intro w
    cases w
    simp [Worker.spawnAll, withIds]
  | cons f fs ih =>
    intro w
    show ((w.spawn f).1).spawnAll fs = _
    rw [ih]
    simp [Worker.spawn, withIds, List.append_assoc]
    omega

/-- The worker state after a blocking `run` call returns: the whole queue
(including the newly spawned task) has executed in order, and the thread is
back waiting with `running` still true. -/
theorem Worker.run_snd (w : Worker S V) (f : JTask S V) (hr : w.running = true) :
    (w.run f).snd =
      { running := true,
        state := runAllState w.state (w.tasks ++ [(w.nextId, f)]),
        tasks := [],
        results := w.results ++ runAllResults w.state (w.tasks ++ [(w.nextId, f)]),
        execLog := w.execLog ++ (w.tasks ++ [(w.nextId, f)]).map (fun p => WEvent.task p.1),
        nextId := w.nextId + 1 } := by
  show ((w.spawn f).1.stepN (w.spawn f).1.tasks.length) = _
  have hq : (w.spawn f).1.tasks = w.tasks ++ [(w.nextId, f)] := rfl
  rw [hq, Worker.stepN_all (w.tasks ++ [(w.nextId, f)]) _ (by simp [Worker.spawn, hr]) hq]
  simp [Worker.spawn]

/-- The value a blocking `run` call returns to the caller: the outcome of
the submitted task's body, run on the state left by every task that was
already queued ahead of it. -/
theorem Worker.run_fst (w : Worker S V) (f : JTask S V)
    (hr : w.running = true) (hwf : w.wf) :
    (w.run f).fst = (f (runAllState w.state w.tasks)).2 := by
  show (((w.spawn f).1.stepN (w.spawn f).1.tasks.length).getResult w.nextId).getD Outcome.err = _
  have hq : (w.spawn f).1.tasks = w.tasks ++ [(w.nextId, f)] := rfl
  rw [hq, Worker.stepN_all (w.tasks ++ [(w.nextId, f)]) _ (by simp [Worker.spawn, hr]) hq]
  have h1 : ∀ p ∈ w.results, p.1 ≠ w.nextId := by
    intro p hp
    exact Nat.ne_of_lt (hwf.1 p hp)
  have h2 : ∀ p ∈ runAllResults w.state w.tasks, p.1 ≠ w.nextId := by
    intro p hp
    have : p.1 ∈ (runAllResults w.state w.tasks).map Prod.fst := List.mem_map_of_mem _ hp
    rw [runAllResults_map_fst] at this
    obtain ⟨q, hq2, hq3⟩ := List.mem_map.mp this
    exact hq3 ▸ Nat.ne_of_lt (hwf.2 q hq2)
  show (findResult (w.results ++ runAllResults w.state (w.tasks ++ [(w.nextId, f)])) w.nextId).getD Outcome.err = _
  rw [runAllResults_append, findResult_append_right _ _ _ h1,
      findResult_append_right _ _ _ h2]
  simp [runAllResults, findResult]

/-- `run` leaves the worker thread alive. -/
theorem Worker.run_running (w : Worker S V) (f : JTask S V)
    (hr : w.running = true) : (w.run f).snd.running = true := by
  rw [Worker.run_snd w f hr]

/-- `run` preserves well-formedness of the worker state. -/
theorem Worker.wf_run (w : Worker S V) (f : JTask S V)
    (hr : w.running = true) (hwf : w.wf) : (w.run f).snd.wf := by
  rw [Worker.run_snd w f hr]
  constructor
  · intro p hp
    simp only [List.mem_append] at hp
    rcases hp with hp | hp
    · exact Nat.lt_succ_of_lt (hwf.1 p hp)
    · have : p.1 ∈ (runAllResults w.state (w.tasks ++ [(w.nextId, f)])).map Prod.fst :=
        List.mem_map_of_mem _ hp
      rw [runAllResults_map_fst] at this
      obtain ⟨q, hq2, hq3⟩ := List.mem_map.mp this
      simp only [List.mem_append, List.mem_singleton] at hq2
      rcases hq2 with hq2 | hq2
      · exact hq3 ▸ Nat.lt_succ_of_lt (hwf.2 q hq2)
      · subst hq2
        simp at hq3
        show p.1 < w.nextId + 1
        omega
  · intro q hq
    exact absurd hq (by simp)

/-- A pure task (no state change, no failure) returns exactly its value
through the blocking `run` path. -/
theorem Worker.run_pure (w : Worker S V) (work : Unit → V)
    (hr : w.running = true) (hwf : w.wf) :
    (w.run (fun s => (s, Outcome.ok (work ())))).fst = Outcome.ok (work ()) := by
  rw [Worker.run_fst w _ hr hwf]

/-- With the shutdown flag set, the thread loop executes nothing: every
wake cycle breaks before touching the queue. -/
theorem Worker.stepN_stopped (w : Worker S V) (h : w.running = false) :
    ∀ n : Nat, w.stepN n = w := by
  intro n
  induction n with
  | zero => rfl
  | succ n ih =>
    show (w.stepOnce).stepN n = w
    have : w.stepOnce = w := by simp [Worker.stepOnce, h]
    rw [this, ih]

/-!
The Julia singleton (src/julia-amp.cpp lines 99-129) owns one Worker whose
thread-owned state is the embedded Julia runtime.  We model the runtime as
a record counting `jl_init` and `jl_atexit_hook` executions and logging the
scripts passed to `jl_eval_string`, together with a pending-exception flag
(`jl_exception_occurred`).
-/

/-- Model of the embedded Julia runtime state, owned by the worker thread:
how often it was initialized and finalized, which scripts were evaluated,
and whether an exception is pending inside the runtime. -/
structure JlRuntime where
  initCount : Nat
  atexitCount : Nat
  evals : List String
  excPending : Bool
deriving DecidableEq

/-- jl_init: start the embedded runtime. -/
def jl_init (r : JlRuntime) : JlRuntime :=
  { r with initCount := r.initCount + 1 }

/-- jl_eval_string: evaluate a script (we record only the script text). -/
def jl_eval_string (s : String) (r : JlRuntime) : JlRuntime :=
  { r with evals := r.evals ++ [s] }

/-- jl_atexit_hook: finalize the embedded runtime. -/
def jl_atexit_hook (status : Nat) (r : JlRuntime) : JlRuntime :=
  { r with atexitCount := r.atexitCount + 1 }

/-- The startup script evaluated by the Julia constructor (line 111). -/
def startScript : String := "println(\"JULIA  START\")"

/-- The script evaluated by the Julia destructor (line 116). -/
def endScript : String := "println(\"JULIA END\")"

/-- The initialization task the Julia constructor submits through the
blocking `run` (lines 109-112): jl_init, then evaluate the startup script. -/
def juliaInitTask : JTask JlRuntime Unit :=
  fun r => (jl_eval_string startScript (jl_init r), Outcome.ok ())

/-- The finalization task the Julia destructor submits through the blocking
`run` (lines 115-118): evaluate the end script, then jl_atexit_hook(0). -/
def juliaEndTask : JTask JlRuntime Unit :=
  fun r => (jl_atexit_hook 0 (jl_eval_string endScript r), Outcome.ok ())

/-- A constructed Julia singleton: it holds exactly one Worker (line 100). -/
structure JuliaInst where
  worker : Worker JlRuntime Unit

/-- A process runtime that has never been touched. -/
def freshRuntime : JlRuntime :=
  ⟨0, 0, [], false⟩

/-- Julia::Julia (lines 108-113): the member Worker is constructed first
(its thread starts), then the constructor body blocks in `worker.run` on
the initialization task. -/
def Julia.ctor (r : JlRuntime) : JuliaInst :=
  ⟨((Worker.new r).run juliaInitTask).snd⟩

/-- Process-wide state of the function-local static `instance` (line 104):
`none` until the first call to Julia::instance constructs it. -/
structure Process where
  julia : Option JuliaInst

/-- Julia::instance (lines 103-106): a function-local static — the first
access constructs the singleton (C++ guarantees this happens exactly once,
serializing concurrent first calls), every later access returns it. -/
def Julia.access (p : Process) : JuliaInst × Process :=
  match p.julia with
  | some j => (j, p)
  | none =>
      let j := Julia.ctor freshRuntime
      (j, ⟨some j⟩)

/-- `n` successive accesses to the singleton (concurrent first accesses are
serialized by the C++ static-local guarantee, so they are a sequence). -/
def accessN : Nat → Process → Process
  | 0, p => p
  | Nat.succ n, p => accessN n (Julia.access p).2

/-- Julia::~Julia (lines 114-119) followed by the implicit destruction of
the `worker` member (which runs after the destructor body): submit the
finalization task through the blocking `run`, then destroy the Worker. -/
def Julia.dtor (j : JuliaInst) : Worker JlRuntime Unit :=
  ((j.worker.run juliaEndTask).snd).destroy

/-!
Plugin callbacks (src/julia-amp.cpp lines 162-313).  Values coming back
from the runtime (`jl_value_t*`) are modelled by `JlValue`; float payloads
are carried as exact rationals, since none of the claims depends on
floating-point rounding.
-/

/-- A boxed value returned by the runtime: a 32-bit float, or a value of
any other dynamic type. -/
inductive JlValue where
  | float32 (x : Rat)
  | int64 (n : Int)
  | nothing
deriving DecidableEq

/-- jl_typeis(ret, jl_float32_type). -/
def JlValue.isFloat32 : JlValue → Bool
  | JlValue.float32 _ => true
  | _ => false

/-- Result handling of the test invocation in activate (lines 262-274):
if the returned value is a Float32, unbox it; otherwise the coefficient is
the sentinel -1.0f. -/
def activateTestCoef (ret : JlValue) : Rat :=
  match ret with
  | JlValue.float32 x => x
  | _ => -1

/-- Result handling of the audio-path invocation in run (lines 300-306):
if the returned value is a Float32, unbox it; otherwise j_coef = -1. -/
def audioCoef (ret : JlValue) : Rat :=
  match ret with
  | JlValue.float32 x => x
  | _ => -1

/-- A call that crosses into the embedded runtime, tagged with whether the
source tests jl_exception_occurred() immediately after it. -/
inductive RtOp where
  | evalString (checkedAfter : Bool)
  | getFunction (checkedAfter : Bool)
  | call1 (checkedAfter : Bool)
deriving DecidableEq

/-- Whether the operation is followed by an immediate error check. -/
def RtOp.isChecked : RtOp → Bool
  | RtOp.evalString b => b
  | RtOp.getFunction b => b
  | RtOp.call1 b => b

/-- Runtime ops of the first activate task (line 240): one jl_eval_string,
no jl_exception_occurred check. -/
def activateHelloOps : List RtOp := [RtOp.evalString false]

/-- Runtime ops of the include/resolve task in activate (lines 244-252):
jl_eval_string then check (E2), jl_get_function then check (E3). -/
def activateIncludeOps : List RtOp := [RtOp.evalString true, RtOp.getFunction true]

/-- Runtime ops of the test-invocation task in activate (lines 262-266):
jl_call1 then check (E4). -/
def activateTestOps : List RtOp := [RtOp.call1 true]

/-- Runtime ops of the audio-path task in run (lines 298-307): jl_call1
with no jl_exception_occurred check (only the jl_typeis type test). -/
def audioRunOps : List RtOp := [RtOp.call1 false]

/-- Runtime ops of Julia::run(const char*) (lines 126-128): jl_eval_string
with no check at all. -/
def juliaRunStringOps : List RtOp := [RtOp.evalString false]

/-- Plugin instance struct (lines 162-168): three port-buffer pointers and
the resolved callable handle.  Pointers are modelled by `Option Nat`
(`none` = NULL, `some a` = the address `a`). -/
structure Amp where
  gain : Option Nat
  input : Option Nat
  output : Option Nat
  db_to_coef : Option Nat
deriving DecidableEq

/-- instantiate (lines 180-189): calloc zero-fills the struct, so every
field is the null pointer; the arguments are not used. -/
def instantiate (descriptor : Nat) (rate : Rat) (bundle_path : String)
    (features : List Nat) : Amp :=
  ⟨none, none, none, none⟩

/-- connect_port (lines 199-217): store the buffer location named by the
port index; the switch has cases only for 0, 1, 2. -/
def connect_port (amp : Amp) (port : Nat) (data : Option Nat) : Amp :=
  match port with
  | 0 => { amp with gain := data }
  | 1 => { amp with input := data }
  | 2 => { amp with output := data }
  | _ => amp

/-- The sample loop of run (lines 310-312): output[pos] = input[pos] * coef
for every pos below n_samples; the buffer is modelled as a list whose
length is the block length. -/
def ampRunBuffer (input : List Rat) (coef : Rat) : List Rat :=
  input.map (fun s => s * coef)

/-!
Claim theorems.
-/

/-- C1: For every pure zero-argument callable `work`, Worker::run(work)
returns exactly the value `work ()` would have produced if called directly
on the calling thread. -/
theorem c1_run_returns_work_value (w : Worker S V) (work : Unit → V)
    (hr : w.running = true) (hwf : w.wf) :
    (w.run (fun s => (s, Outcome.ok (work ())))).fst = Outcome.ok (work ()) :=
  Worker.run_pure w work hr hwf

/-- C1 witness: run of a callable returning 2+2 yields 4. -/
theorem c1_run_returns_work_value_witness :
    ((Worker.new 0 : Worker Nat Nat).run (fun s => (s, Outcome.ok (2 + 2)))).fst
      = Outcome.ok 4 :=
  c1_run_returns_work_value (Worker.new 0) (fun _ => 2 + 2) rfl
    ⟨(fun p hp => nomatch hp), (fun q hq => nomatch hq)⟩

/-- C2: the execution order of tasks equals the submission order: spawning
a list of tasks assigns them consecutive ids and the worker thread's event
log after processing the queue lists exactly those ids, in submission
order (one task executed per wake cycle). -/
theorem c2_fifo_order (w : Worker S V) (fs : List (JTask S V))
    (hr : w.running = true) (ht : w.tasks = []) :
    ((w.spawnAll fs).stepN fs.length).execLog
      = w.execLog ++ (idsFrom w.nextId fs.length).map WEvent.task := by
  rw [Worker.spawnAll_eq]
  have hall := Worker.stepN_all (withIds w.nextId fs)
      { w with tasks := w.tasks ++ withIds w.nextId fs, nextId := w.nextId + fs.length }
      (by simp [hr]) (by simp [ht])
  rw [withIds_length] at hall
  rw [hall]
  show w.execLog ++ (withIds w.nextId fs).map (fun p => WEvent.task p.1)
      = w.execLog ++ (idsFrom w.nextId fs.length).map WEvent.task
  rw [← withIds_map_fst w.nextId fs, List.map_map]
  rfl

/-- C2 witness: two concrete tasks execute in the order they were spawned. -/
theorem c2_fifo_order_witness :
    (((Worker.new 0 : Worker Nat Nat).spawnAll
        [fun s => (s, Outcome.ok 1), fun s => (s + 1, Outcome.ok 2)]).stepN 2).execLog
      = [] ++ (idsFrom 0 2).map WEvent.task :=
  c2_fifo_order (Worker.new 0) [fun s => (s, Outcome.ok 1), fun s => (s + 1, Outcome.ok 2)]
    rfl rfl

/-- C3: if a task's callable throws on the worker thread, the failure is
captured into that task's result slot and observed by the caller blocked in
Worker::run; the worker thread does not terminate — it stays running and
correctly executes a subsequent task. -/
theorem c3_failure_captured (w : Worker S V) (fail : S → S) (g : Unit → V)
    (hr : w.running = true) (hwf : w.wf) :
    (w.run (fun s => (fail s, Outcome.err))).fst = Outcome.err ∧
    (w.run (fun s => (fail s, Outcome.err))).snd.running = true ∧
    ((w.run (fun s => (fail s, Outcome.err))).snd.run
        (fun s => (s, Outcome.ok (g ())))).fst = Outcome.ok (g ()) := by
  refine ⟨?_, Worker.run_running w _ hr, ?_⟩
  · rw [Worker.run_fst w _ hr hwf]
  · exact Worker.run_pure _ g (Worker.run_running w _ hr) (Worker.wf_run w _ hr hwf)

/-- C3 witness: a concrete throwing task surfaces a failure and the worker
then still produces 7 for the next task. -/
theorem c3_failure_captured_witness :
    ((Worker.new 0 : Worker Nat Nat).run (fun s => (s + 1, Outcome.err))).fst
        = Outcome.err ∧
    ((Worker.new 0 : Worker Nat Nat).run (fun s => (s + 1, Outcome.err))).snd.running
        = true ∧
    (((Worker.new 0 : Worker Nat Nat).run (fun s => (s + 1, Outcome.err))).snd.run
        (fun s => (s, Outcome.ok 7))).fst = Outcome.ok 7 :=
  c3_failure_captured (Worker.new 0) (fun s => s + 1) (fun _ => 7) rfl
    ⟨(fun p hp => nomatch hp), (fun q hq => nomatch hq)⟩

/-- C4 counterexample: the claim that every runtime-crossing call checks
for a pending runtime exception immediately afterwards fails on the code:
the audio-path jl_call1 in run() and the jl_eval_string in
Julia::run(const char*) are not followed by any jl_exception_occurred
check. -/
theorem c4_counterexample :
    ¬ (audioRunOps.all RtOp.isChecked = true ∧
       juliaRunStringOps.all RtOp.isChecked = true) := by
  decide

/-- C4 (amended): only the include/resolve and test-invocation operations
in activate check jl_exception_occurred immediately after the runtime
operation; the hello-eval in activate, the audio-path invocation in run(),
and the script-string overload Julia::run(const char*) perform no such
check. -/
theorem c4_amended_checks :
    activateIncludeOps.all RtOp.isChecked = true ∧
    activateTestOps.all RtOp.isChecked = true ∧
    activateHelloOps.all RtOp.isChecked = false ∧
    audioRunOps.all RtOp.isChecked = false ∧
    juliaRunStringOps.all RtOp.isChecked = false := by
  decide

/-- C5: whenever the value returned by the resolved callable is not of the
Float32 dynamic type, the computed coefficient is the sentinel -1.0, both
in the activate test call and in the audio-path call in run(). -/
theorem c5_type_mismatch_sentinel (ret : JlValue) (h : ret.isFloat32 = false) :
    activateTestCoef ret = -1 ∧ audioCoef ret = -1 := by
  cases ret with
  | float32 x => simp [JlValue.isFloat32] at h
  | int64 n => exact ⟨rfl, rfl⟩
  | nothing => exact ⟨rfl, rfl⟩

/-- C5 witness: a returned `nothing` value yields the sentinel in both
call sites. -/
theorem c5_type_mismatch_sentinel_witness :
    JlValue.nothing.isFloat32 = false ∧
    (activateTestCoef JlValue.nothing = -1 ∧ audioCoef JlValue.nothing = -1) :=
  ⟨rfl, c5_type_mismatch_sentinel JlValue.nothing rfl⟩

/-- Later accesses return the already-constructed singleton unchanged. -/
theorem accessN_some (j : JuliaInst) : ∀ n : Nat, accessN n ⟨some j⟩ = ⟨some j⟩ := by
  intro n
  induction n with
  | zero => rfl
  | succ n ih => exact ih

/-- C6: any positive number of accesses to the singleton constructs it
exactly once — the stored instance is the one built on first access — and
its construction ran the initialization task (jl_init once, id-0 task in
the worker's log) on the Worker's thread, with the task's result slot
fulfilled before the accessor returns. -/
theorem c6_singleton_init_once (n : Nat) (h : 0 < n) :
    (accessN n ⟨none⟩).julia = some (Julia.ctor freshRuntime) ∧
    (Julia.ctor freshRuntime).worker.state.initCount = 1 ∧
    (Julia.ctor freshRuntime).worker.execLog = [WEvent.task 0] ∧
    (Julia.ctor freshRuntime).worker.getResult 0 = some (Outcome.ok ()) := by
  refine ⟨?_, rfl, rfl, rfl⟩
  match n, h with
  | Nat.succ m, _ =>
    show (accessN m (Julia.access ⟨none⟩).2).julia = _
    have : (Julia.access ⟨none⟩).2 = ⟨some (Julia.ctor freshRuntime)⟩ := rfl
    rw [this, accessN_some]

/-- C6 witness: two accesses still hold the instance built first, with one
jl_init execution. -/
theorem c6_singleton_init_once_witness :
    (accessN 2 ⟨none⟩).julia = some (Julia.ctor freshRuntime) ∧
    (Julia.ctor freshRuntime).worker.state.initCount = 1 ∧
    (Julia.ctor freshRuntime).worker.execLog = [WEvent.task 0] ∧
    (Julia.ctor freshRuntime).worker.getResult 0 = some (Outcome.ok ()) :=
  c6_singleton_init_once 2 (by decide)

/-- C7: destroying the singleton runs the finalization task (id 1, the
jl_atexit_hook task) through the blocking `run`, and its execution event
strictly precedes the Worker's stop signal in the event log; jl_atexit_hook
runs exactly once, and only then is the worker thread stopped. -/
theorem c7_teardown_order :
    (Julia.dtor (Julia.ctor freshRuntime)).state.atexitCount = 1 ∧
    (Julia.dtor (Julia.ctor freshRuntime)).execLog
      = [WEvent.task 0, WEvent.task 1, WEvent.stop] ∧
    (Julia.dtor (Julia.ctor freshRuntime)).running = false :=
  ⟨rfl, rfl, rfl⟩

/-- C8: destroying the Worker signals the thread to stop (running becomes
false, the stop event is logged) and after that no number of wake cycles
executes anything: the log gains no task events and the queued tasks stay
in the queue, never executed. -/
theorem c8_destroy_discards_queue (w : Worker S V) (n : Nat) :
    (w.destroy).running = false ∧
    ((w.destroy).stepN n).execLog = w.execLog ++ [WEvent.stop] ∧
    ((w.destroy).stepN n).tasks = w.tasks := by
  have h : (w.destroy).running = false := rfl
  have hs := Worker.stepN_stopped w.destroy h n
  exact ⟨h, by rw [hs]; rfl, by rw [hs]; rfl⟩

/-- C9: the audio run() loop writes output[pos] = input[pos] * coef for
every position below the block length. -/
theorem c9_run_writes_products (input : List Rat) (coef : Rat) (pos : Nat)
    (h : pos < input.length) :
    (ampRunBuffer input coef)[pos]? = some (input.get ⟨pos, h⟩ * coef) := by
  simp [ampRunBuffer, List.getElem?_eq_getElem, h, List.get_eq_getElem]

/-- C9 witness: coefficient 708/1000 applied to the buffer [1, 2, 3] at
position 1 produces 2 * 708/1000 = 1.416. -/
theorem c9_run_writes_products_witness :
    1 < ([1, 2, 3] : List Rat).length ∧
    (ampRunBuffer [1, 2, 3] (708 / 1000))[1]?
      = some (([1, 2, 3] : List Rat).get ⟨1, by decide⟩ * (708 / 1000)) :=
  ⟨by decide, c9_run_writes_products [1, 2, 3] (708 / 1000) 1 (by decide)⟩

/-- C10: connect_port updates exactly the field selected by the port index
(gain for 0, input for 1, output for 2), leaves every other field —
including db_to_coef — unchanged, and leaves the instance entirely
unchanged for any port index above 2; instantiate returns an instance with
all four fields null regardless of its arguments. -/
theorem c10_connect_port_frame (amp : Amp) (port : Nat) (data : Option Nat)
    (descriptor : Nat) (rate : Rat) (bundle_path : String) (features : List Nat)
    (h : 2 < port) :
    connect_port amp 0 data = { amp with gain := data } ∧
    connect_port amp 1 data = { amp with input := data } ∧
    connect_port amp 2 data = { amp with output := data } ∧
    connect_port amp port data = amp ∧
    instantiate descriptor rate bundle_path features = ⟨none, none, none, none⟩ := by
  refine ⟨rfl, rfl, rfl, ?_, rfl⟩
  obtain ⟨k, rfl⟩ : ∃ k, port = k + 3 := ⟨port - 3, by omega⟩
  rfl

/-- C10 witness: concrete instance, port 5 leaves everything unchanged and
ports 0-2 each set exactly one pointer. -/
theorem c10_connect_port_frame_witness :
    2 < 5 ∧
    (connect_port ⟨none, none, none, some 4⟩ 0 (some 10)
        = ⟨some 10, none, none, some 4⟩ ∧
     connect_port ⟨none, none, none, some 4⟩ 1 (some 10)
        = ⟨none, some 10, none, some 4⟩ ∧
     connect_port ⟨none, none, none, some 4⟩ 2 (some 10)
        = ⟨none, none, some 10, some 4⟩ ∧
     connect_port ⟨none, none, none, some 4⟩ 5 (some 10)
        = ⟨none, none, none, some 4⟩ ∧
     instantiate 0 0 "path" [] = ⟨none, none, none, none⟩) :=
  ⟨by decide, c10_connect_port_frame ⟨none, none, none, some 4⟩ 5 (some 10) 0 0 "path" []
    (by decide)⟩
